import Mathlib

/-!
Shallow embedding of `src/fidelity/disp_div.py` (invest_tools).

Modelling conventions:
* A pandas DataFrame row becomes `Row`.  The four columns the core interprets
  are carried explicitly; the passthrough columns are irrelevant to every claim
  and are omitted.
* pandas `NaN` cells (absent `Action`/`Symbol` text, missing or unparseable
  amounts) are modelled as `none` of an `Option`.
* Dollar amounts are modelled exactly, in integer cents, instead of binary
  floats; all amounts in the spec's scenarios are 2-decimal values, where the
  two agree.
* Python exceptions become the `PyError` sum type and fallible steps return
  `Except PyError`.  `pd.read_csv`'s outcome (file present) is modelled by
  `ReadResult`: it either raises `EmptyDataError`, raises `ParserError`, or
  yields a parsed table `Csv` (header names plus rows).  Column access
  `df["c"]` raises `KeyError c` when the (whitespace-stripped) header lacks
  `c`, which the model checks in source order.
* Output: each `print` inside the report views becomes one `OutLine`
  constructor carrying the data the Python f-string interpolates; `lineText`
  gives the exact printed text for the lines the program itself formats
  (pandas' own table renderings are `none`).  The diagnostic banner printed at
  the top of `dividend_csv_process` (line 110) precedes the report phase and is
  not part of the report output modelled here.
-/

/-- ASCII upper-casing of one character, as Python's `str.upper` acts on the
ASCII data this tool reads. -/
def upChar (c : Char) : Char :=
  if c = 'a' then 'A' else if c = 'b' then 'B' else if c = 'c' then 'C'
  else if c = 'd' then 'D' else if c = 'e' then 'E' else if c = 'f' then 'F'
  else if c = 'g' then 'G' else if c = 'h' then 'H' else if c = 'i' then 'I'
  else if c = 'j' then 'J' else if c = 'k' then 'K' else if c = 'l' then 'L'
  else if c = 'm' then 'M' else if c = 'n' then 'N' else if c = 'o' then 'O'
  else if c = 'p' then 'P' else if c = 'q' then 'Q' else if c = 'r' then 'R'
  else if c = 's' then 'S' else if c = 't' then 'T' else if c = 'u' then 'U'
  else if c = 'v' then 'V' else if c = 'w' then 'W' else if c = 'x' then 'X'
  else if c = 'y' then 'Y' else if c = 'z' then 'Z' else c

/-- Model of `s.upper()` / pandas `case=False` normalization. -/
def upperStr (s : String) : String :=
  String.mk (s.data.map upChar)

/-- Python/pandas whitespace (for `str.strip`). -/
def isSpaceChar (c : Char) : Bool :=
  c == ' ' || c == '\t' || c == '\n' || c == '\r'

/-- Strip whitespace from both ends of a character list. -/
def trimL (l : List Char) : List Char :=
  ((l.dropWhile isSpaceChar).reverse.dropWhile isSpaceChar).reverse

/-- Model of `df.columns.str.strip()` on one column name (line 76/88). -/
def stripStr (s : String) : String :=
  String.mk (trimL s.data)

/-- Case-insensitive substring containment: `startsWithL s pat` is true when
`pat` is a prefix of `s` (character lists). -/
def startsWithL : List Char → List Char → Bool
  | _, [] => true
  | [], _ :: _ => false
  | c :: cs, p :: ps => c == p && startsWithL cs ps

/-- Predicate: `containsL pat s` is true when `pat` occurs as a contiguous sublist of `s`. -/
def containsL (pat : List Char) : List Char → Bool
  | [] => startsWithL [] pat
  | c :: t => startsWithL (c :: t) pat || containsL pat t

/-- Model of `Series.str.contains(pat, case=False)` for a regex-free pattern:
substring containment after upper-casing both sides. -/
def strContainsCI (s pat : String) : Bool :=
  containsL (upperStr pat).toList (upperStr s).toList

/-- One loaded DataFrame row: `Run Date`, `Action`, `Symbol`, `Amount ($)`
(post `pd.to_numeric(..., errors="coerce")`, so `none` is NaN; cents). -/
structure Row where
  runDate : String
  action : Option String
  symbol : Option String
  amount : Option Int
  deriving DecidableEq, Repr

/-- A raw `Amount ($)` cell as read by `pd.read_csv`: either a numeric value
(cents) or a cell (unparseable text or blank) that `pd.to_numeric` with
`errors="coerce"` turns into NaN. -/
inductive RawCell
  | numeric (cents : Int)
  | nonNumeric
  deriving DecidableEq, Repr

/-- A row as parsed from the file, before the amount coercion. -/
structure RawRow where
  runDate : String
  action : Option String
  symbol : Option String
  amountCell : RawCell
  deriving DecidableEq, Repr

/-- Model of `pd.to_numeric(x, errors="coerce")` on one cell: numeric values pass
through, anything else becomes the explicit missing marker. -/
def toNumericCoerce : RawCell → Option Int
  | RawCell.numeric c => some c
  | RawCell.nonNumeric => none

/-- Line 77: replace the raw amount cell by its coerced numeric value. -/
def coerceRow (r : RawRow) : Row :=
  { runDate := r.runDate, action := r.action, symbol := r.symbol,
    amount := toNumericCoerce r.amountCell }

/-- A successfully parsed delimited file: header names (pre-strip) and rows. -/
structure Csv where
  header : List String
  rows : List RawRow
  deriving DecidableEq, Repr

/-- Outcome of `pd.read_csv` on an existing file. -/
inductive ReadResult
  | emptyData
  | parserError
  | ok (csv : Csv)
  deriving DecidableEq, Repr

/-- Python exceptions that can escape the functions modelled here. -/
inductive PyError
  | fileNotFoundError
  | pdEmptyData
  | pdParserError
  | runtimeInvalidFormat
  | keyError (col : String)
  deriving DecidableEq, Repr

/-- Model of `pd.read_csv(self.file_path)` on an existing file. -/
def readCsv : ReadResult → Except PyError Csv
  | ReadResult.emptyData => Except.error PyError.pdEmptyData
  | ReadResult.parserError => Except.error PyError.pdParserError
  | ReadResult.ok csv => Except.ok csv

/-- Python truthiness of `self.symbol` (line 82/92): `None` and `""` are falsy. -/
def pyTruthy : Option String → Bool
  | none => false
  | some s => !(s == "")

/-- Model of `self.symbol.upper()` (lines 83/93); only evaluated under `pyTruthy`. -/
def symbolUpper : Option String → String
  | some s => upperStr s
  | none => ""

/-- Model of `df["Symbol"] == t` on one cell: NaN compares unequal to every string. -/
def symbolEq : Option String → String → Bool
  | some s, t => s == t
  | none, _ => false

/-- Model of `df["Action"].str.contains(pat, case=False, na=False)` on one cell. -/
def actionContains : Option String → String → Bool
  | some s, pat => strContainsCI s pat
  | none, _ => false

/-- Model of `df["Amount ($)"] >= 0` on one cell: NaN compares false. -/
def amountGE0 : Option Int → Bool
  | some a => decide (0 ≤ a)
  | none => false

/-- The dividend mask of `_load_and_filter_dividends` (lines 79-83): action
contains "DIVIDEND" case-insensitively, amount ≥ 0, and (when a truthy symbol
filter is given) the symbol cell equals the upper-cased filter. -/
def divMask (symbol : Option String) (r : Row) : Bool :=
  actionContains r.action "DIVIDEND" && amountGE0 r.amount &&
    (!pyTruthy symbol || symbolEq r.symbol (symbolUpper symbol))

/-- The reinvestment mask of `_load_and_filter_investments` (lines 91-93):
action contains "REINVESTMENT" case-insensitively; no amount condition. -/
def invMask (symbol : Option String) (r : Row) : Bool :=
  actionContains r.action "REINVESTMENT" &&
    (!pyTruthy symbol || symbolEq r.symbol (symbolUpper symbol))

/-- The loaded row set: every parsed row with its amount coerced (line 77). -/
def loadedRows (csv : Csv) : List Row :=
  csv.rows.map coerceRow

/-- Model of `Dividend._load_and_filter_dividends` (lines 74-84): read the file, strip
column names, then access `Amount ($)` (line 77, KeyError if absent), `Action`
(line 79), and — when a truthy symbol filter is given — `Symbol` (line 83), in
that source order; finally return the masked rows. -/
def loadAndFilterDividends (rr : ReadResult) (symbol : Option String) :
    Except PyError (List Row) :=
  match readCsv rr with
  | Except.error e => Except.error e
  | Except.ok csv =>
    let cols := csv.header.map stripStr
    if cols.contains "Amount ($)" then
      if cols.contains "Action" then
        if pyTruthy symbol then
          if cols.contains "Symbol" then
            Except.ok ((loadedRows csv).filter (divMask symbol))
          else Except.error (PyError.keyError "Symbol")
        else Except.ok ((loadedRows csv).filter (divMask symbol))
      else Except.error (PyError.keyError "Action")
    else Except.error (PyError.keyError "Amount ($)")

/-- Model of `Dividend._load_and_filter_investments` (lines 86-94): same access order,
with the reinvestment mask. -/
def loadAndFilterInvestments (rr : ReadResult) (symbol : Option String) :
    Except PyError (List Row) :=
  match readCsv rr with
  | Except.error e => Except.error e
  | Except.ok csv =>
    let cols := csv.header.map stripStr
    if cols.contains "Amount ($)" then
      if cols.contains "Action" then
        if pyTruthy symbol then
          if cols.contains "Symbol" then
            Except.ok ((loadedRows csv).filter (invMask symbol))
          else Except.error (PyError.keyError "Symbol")
        else Except.ok ((loadedRows csv).filter (invMask symbol))
      else Except.error (PyError.keyError "Action")
    else Except.error (PyError.keyError "Amount ($)")

/-- The two CLI categories (`Action` enum, lines 18-20). -/
inductive PyAction
  | dividend
  | investment
  deriving DecidableEq, Repr

/-- Dispatch on `self.action` (lines 65-68). -/
def loadAction : PyAction → ReadResult → Option String → Except PyError (List Row)
  | PyAction.dividend, rr, symbol => loadAndFilterDividends rr symbol
  | PyAction.investment, rr, symbol => loadAndFilterInvestments rr symbol

/-- Model of `Dividend.__enter__` (lines 38-72): FileNotFoundError if the path does not
exist; otherwise load and filter, converting pandas `EmptyDataError` and
`ParserError` into `RuntimeError` (invalid CSV format).  Any other exception
(notably `KeyError` from a missing column) propagates unconverted.  The success
value is wrapped in `Option` to reflect Python's ability to return `None`; the
code always returns the DataFrame itself. -/
def enter (fileExists : Bool) (rr : ReadResult) (action : PyAction)
    (symbol : Option String) : Except PyError (Option (List Row)) :=
  if fileExists then
    match loadAction action rr symbol with
    | Except.ok df => Except.ok (some df)
    | Except.error PyError.pdEmptyData => Except.error PyError.runtimeInvalidFormat
    | Except.error PyError.pdParserError => Except.error PyError.runtimeInvalidFormat
    | Except.error e => Except.error e
  else Except.error PyError.fileNotFoundError

/-- Insert into a ≤-sorted list of strings. -/
def insertStr (s : String) : List String → List String
  | [] => [s]
  | t :: ts => if s ≤ t then s :: t :: ts else t :: insertStr s ts

/-- Insertion sort on strings: `groupby` iterates group keys in ascending
order (pandas default `sort=True`). -/
def sortStrs : List String → List String
  | [] => []
  | t :: ts => insertStr t (sortStrs ts)

/-- First-occurrence deduplication (`Series.unique` order). -/
def dedupAux [BEq α] (seen : List α) : List α → List α
  | [] => []
  | s :: ss => if seen.contains s then dedupAux seen ss
               else s :: dedupAux (s :: seen) ss

/-- First-occurrence deduplication of a list. -/
def dedupFirst [BEq α] (l : List α) : List α :=
  dedupAux [] l

/-- The keys of `divs.groupby("Symbol")`: the distinct symbols present, in
ascending order; rows whose `Symbol` is NaN are dropped (pandas default
`dropna=True`). -/
def groupKeys (rows : List Row) : List String :=
  sortStrs (dedupFirst (rows.filterMap (fun r => r.symbol)))

/-- The rows of one `groupby` group. -/
def groupRows (rows : List Row) (k : String) : List Row :=
  rows.filter (fun r => r.symbol == some k)

/-- Model of `Series.sum()` semantics: NaN amounts are skipped, i.e. contribute 0. -/
def amountOrZero : Option Int → Int
  | some a => a
  | none => 0

/-- Sum of the `Amount ($)` column over a row list (cents). -/
def sumAmounts (rows : List Row) : Int :=
  (rows.map (fun r => amountOrZero r.amount)).sum

/-- Model of `group["Amount ($)"].sum()` for the group of symbol `k`. -/
def groupTotal (rows : List Row) (k : String) : Int :=
  sumAmounts (groupRows rows k)

/-- One printed line of the report phase.  Each constructor is one `print`
site; payloads are the values the f-string interpolates.  pandas frame prints
(`print(df[...])`, `.to_string()`) carry the frame itself. -/
inductive OutLine
  | noData
  | noDividends
  | totalLine (sym : String) (cents : Int)
  | symbolsHeader
  | symbolLine (sym : Option String)
  | symbolHeader (sym : String)
  | frameGroup (sym : String) (rows : List Row)
  | frame (rows : List Row)
  | frameAll (rows : List Row)
  | unknownReport (r : String)
  deriving DecidableEq, Repr

/-- Render {total:.2f} for an exact cents value (sign, units, 2 decimals). -/
def fmtCents (c : Int) : String :=
  (if c < 0 then "-" else "") ++ toString (c.natAbs / 100) ++ "." ++
    (if c.natAbs % 100 < 10 then "0" ++ toString (c.natAbs % 100)
     else toString (c.natAbs % 100))

/-- The exact text of the lines the Python code formats itself; `none` for the
pandas-rendered frame dumps. -/
def lineText : OutLine → Option String
  | OutLine.noData => some "No data available."
  | OutLine.noDividends => some "No dividends found."
  | OutLine.totalLine s c => some ("Total Amount for " ++ s ++ ": $" ++ fmtCents c)
  | OutLine.symbolsHeader => some "Available Symbols:"
  | OutLine.symbolLine (some s) => some s
  | OutLine.symbolLine none => some "nan"
  | OutLine.symbolHeader s => some ("\nSymbol: " ++ s)
  | OutLine.frameGroup _ _ => none
  | OutLine.frame _ => none
  | OutLine.frameAll _ => none
  | OutLine.unknownReport r => some ("Unknown report: " ++ r)

/-- The local `sum` view of `dividend_csv_process` (lines 111-119): a single
no-data notice on an empty frame, otherwise one total line per symbol group. -/
def sumView (divs : List Row) : List OutLine :=
  if divs.isEmpty then [OutLine.noDividends]
  else (groupKeys divs).map (fun k => OutLine.totalLine k (groupTotal divs k))

/-- Model of `divs["Symbol"].unique()` (line 124): first-occurrence distinct symbol
cells, NaN included. -/
def uniqueSymbols (divs : List Row) : List (Option String) :=
  dedupFirst (divs.map (fun r => r.symbol))

/-- The local `symbols_details` view (lines 122-126). -/
def symbolsView (divs : List Row) : List OutLine :=
  OutLine.symbolsHeader :: (uniqueSymbols divs).map OutLine.symbolLine

/-- The local `details` view (lines 128-134): per group, a symbol banner, the
group's frame, and the group's total line. -/
def detailsView (divs : List Row) : List OutLine :=
  ((groupKeys divs).map (fun k =>
    [OutLine.symbolHeader k, OutLine.frameGroup k (groupRows divs k),
     OutLine.totalLine k (groupTotal divs k)])).flatten

/-- Model of the `report_map` dispatch after the overrides of lines 137-139, plus the
unknown-report fallback (lines 144-147).  `"print"` and `"all"` keep the
module-level frame-printing lambdas (lines 26-27). -/
def runReport : String → List Row → List OutLine
  | "sum", divs => sumView divs
  | "symbols", divs => symbolsView divs
  | "details", divs => detailsView divs
  | "print", divs => [OutLine.frame divs]
  | "all", divs => [OutLine.frameAll divs]
  | r, _ => [OutLine.unknownReport r]

/-- Model of `dividend_csv_process` (lines 107-148), report phase: enter the context
manager (errors propagate, `__exit__` suppresses nothing), print
"No data available." if the frame is `None`, otherwise run the report. -/
def dividend_csv_process (report : String) (action : PyAction)
    (fileExists : Bool) (rr : ReadResult) (symbol : Option String) :
    Except PyError (List OutLine) :=
  match enter fileExists rr action symbol with
  | Except.error e => Except.error e
  | Except.ok none => Except.ok [OutLine.noData]
  | Except.ok (some divs) => Except.ok (runReport report divs)

/-- The spec's description of the symbol filter, for comparison with the
code's: "exact case-insensitive match against the row's symbol field". -/
def specSymbolMatchCI (rowSym filt : String) : Bool :=
  upperStr rowSym == upperStr filt

/-- The dividend category subset of a loaded row set (no symbol filter). -/
def dividendSubset (rows : List Row) : List Row :=
  rows.filter (divMask none)

/-- The reinvestment category subset of a loaded row set (no symbol filter). -/
def reinvestSubset (rows : List Row) : List Row :=
  rows.filter (invMask none)

/-- The cents payloads of the `Total Amount for ...` lines in a report
output, i.e. the per-symbol totals the Totals view prints. -/
def printedTotals (out : List OutLine) : List Int :=
  out.filterMap (fun l => match l with
    | OutLine.totalLine _ c => some c
    | _ => none)

/-- The full Fidelity CSV header (module docstring, lines 3-6). -/
def fullHeader : List String :=
  ["Run Date", "Action", "Symbol", "Description", "Type", "Price ($)",
   "Quantity", "Commission ($)", "Fees ($)", "Accrued Interest ($)",
   "Amount ($)", "Cash Balance ($)", "Settlement Date"]

/-- A raw row with every interpreted cell present. -/
def mkRaw (d a s : String) (c : Int) : RawRow :=
  { runDate := d, action := some a, symbol := some s,
    amountCell := RawCell.numeric c }

/-- The spec's four-row scenario file (spec §8), amounts in cents. -/
def csvScenario : Csv :=
  { header := fullHeader,
    rows := [mkRaw "2025-01-01" "DIVIDEND RECEIVED" "AAA" 500,
             mkRaw "2025-01-02" "DIVIDEND RECEIVED" "AAA" 300,
             mkRaw "2025-01-03" "DIVIDEND REVERSAL" "AAA" (-100),
             mkRaw "2025-01-04" "REINVESTMENT" "BBB" (-1000)] }

/-- A file with a single dividend row whose symbol is lower-case "abc". -/
def csvLowerSym : Csv :=
  { header := fullHeader,
    rows := [mkRaw "2025-01-01" "DIVIDEND RECEIVED" "abc" 500] }

/-- The loaded form of `csvLowerSym`'s single row. -/
def rowLowerSym : Row :=
  { runDate := "2025-01-01", action := some "DIVIDEND RECEIVED",
    symbol := some "abc", amount := some 500 }

/-- A file that parses but whose header lacks the `Amount ($)` column. -/
def csvNoAmountCol : Csv :=
  { header := ["Run Date", "Action", "Symbol"],
    rows := [] }

/-- A parsed file with a header and no data rows. -/
def csvNoRows : Csv :=
  { header := fullHeader, rows := [] }

/-- A dividend row whose `Symbol` cell is NaN. -/
def rowNoSym : Row :=
  { runDate := "2025-01-05", action := some "DIVIDEND RECEIVED",
    symbol := none, amount := some 500 }

/-- A raw row whose `Amount ($)` cell is unparseable text. -/
def rawBadAmount : RawRow :=
  { runDate := "2025-01-06", action := some "REINVESTMENT",
    symbol := some "CCC", amountCell := RawCell.nonNumeric }

lemma actionContains_dividend (o : Option String) :
    actionContains o "dividend" = actionContains o "DIVIDEND" := by
  cases o <;> rfl

lemma actionContains_reinvestment (o : Option String) :
    actionContains o "reinvestment" = actionContains o "REINVESTMENT" := by
  cases o <;> rfl

lemma amountGE0_iff (o : Option Int) :
    amountGE0 o = true ↔ ∃ a, o = some a ∧ 0 ≤ a := by
  cases o with
  | none => simp [amountGE0]
  | some a => simp [amountGE0]

lemma divMask_none_iff (r : Row) :
    divMask none r = true ↔
      (actionContains r.action "DIVIDEND" = true ∧ amountGE0 r.amount = true) := by
  simp [divMask, pyTruthy]

lemma invMask_none_iff (r : Row) :
    invMask none r = true ↔ actionContains r.action "REINVESTMENT" = true := by
  simp [invMask, pyTruthy]

/-- C2.  For every loaded row set, a row is in the dividend subset iff its
action text case-insensitively contains "dividend" and its amount is present
and ≥ 0; rows with negative (or missing) amounts are excluded. -/
theorem spec_C2_dividend_filter (rows : List Row) (r : Row) :
    r ∈ dividendSubset rows ↔
      r ∈ rows ∧ actionContains r.action "dividend" = true ∧
        ∃ a, r.amount = some a ∧ 0 ≤ a := by
  unfold dividendSubset
  rw [List.mem_filter, divMask_none_iff, actionContains_dividend,
    amountGE0_iff]

/-- C3.  For every loaded row set, a row is in the reinvestment subset iff its
action text case-insensitively contains "reinvestment"; no amount-sign
condition is applied, so any amount (negative, non-negative, or missing)
passes. -/
theorem spec_C3_reinvestment_filter (rows : List Row) (r : Row) :
    r ∈ reinvestSubset rows ↔
      r ∈ rows ∧ actionContains r.action "reinvestment" = true := by
  unfold reinvestSubset
  rw [List.mem_filter, invMask_none_iff, actionContains_reinvestment]

/-- C1.  The symbol filter is not case-insensitive on the row side: the code
compares the row's `Symbol` cell for exact equality with the upper-cased
filter string (lines 83/93), although the docstring (line 49) and the spec
describe a case-insensitive match.  At the failing input — a dividend row with
symbol "abc" and filter "ABC" — the row passes the category mask and matches
case-insensitively in the spec's sense, yet the code returns the empty subset;
with no filter the same row is returned. -/
theorem spec_C1_symbol_filter_bug :
    specSymbolMatchCI "abc" "ABC" = true ∧
    divMask none rowLowerSym = true ∧
    loadAndFilterDividends (ReadResult.ok csvLowerSym) (some "ABC") =
      Except.ok [] ∧
    loadAndFilterDividends (ReadResult.ok csvLowerSym) none =
      Except.ok [rowLowerSym] ∧
    specSymbolMatchCI "abcd" "ABC" = false :=
  ⟨rfl, rfl, rfl, rfl, rfl⟩

/-- C4.  On the spec's four-row scenario file the dividend/sum report prints
exactly one total line, "Total Amount for AAA: $8.00", and the investment/sum
report prints "Total Amount for BBB: $-10.00". -/
theorem spec_C4_scenario :
    dividend_csv_process "sum" PyAction.dividend true
        (ReadResult.ok csvScenario) none =
      Except.ok [OutLine.totalLine "AAA" 800] ∧
    dividend_csv_process "sum" PyAction.investment true
        (ReadResult.ok csvScenario) none =
      Except.ok [OutLine.totalLine "BBB" (-1000)] ∧
    lineText (OutLine.totalLine "AAA" 800) =
      some "Total Amount for AAA: $8.00" ∧
    lineText (OutLine.totalLine "BBB" (-1000)) =
      some "Total Amount for BBB: $-10.00" :=
  ⟨rfl, rfl, rfl, rfl⟩

/-- C8.  On a file that parses but whose header lacks the required
`Amount ($)` column, loading fails with an uncaught `KeyError` (internal
field-access error), not with the `RuntimeError` invalid-format category the
claim requires: the `except` clause at lines 71-72 catches only pandas'
`EmptyDataError` and `ParserError`. -/
theorem spec_C8_missing_column_keyerror :
    dividend_csv_process "sum" PyAction.dividend true
        (ReadResult.ok csvNoAmountCol) none =
      Except.error (PyError.keyError "Amount ($)") ∧
    PyError.keyError "Amount ($)" ≠ PyError.runtimeInvalidFormat :=
  ⟨rfl, by decide⟩

lemma loadAction_ok_error (action : PyAction) (csv : Csv)
    (symbol : Option String) (e : PyError)
    (h : loadAction action (ReadResult.ok csv) symbol = Except.error e) :
    ∃ c, e = PyError.keyError c := by
  cases action with
  | dividend =>
    unfold loadAction loadAndFilterDividends at h
    simp only [readCsv] at h
    repeat' split at h
    all_goals
      first
        | (injection h with h2
           exact ⟨_, h2.symm⟩)
        | simp at h
  | investment =>
    unfold loadAction loadAndFilterInvestments at h
    simp only [readCsv] at h
    repeat' split at h
    all_goals
      first
        | (injection h with h2
           exact ⟨_, h2.symm⟩)
        | simp at h

/-- C6.  Whenever loading succeeds with an empty filtered row set, the Totals
(sum) view emits the single no-data notice and the invocation returns
normally (an `Except.ok`, i.e. exit code 0), not an error. -/
theorem spec_C6_empty_notice (action : PyAction) (csv : Csv)
    (symbol : Option String)
    (h : loadAction action (ReadResult.ok csv) symbol = Except.ok []) :
    dividend_csv_process "sum" action true (ReadResult.ok csv) symbol =
      Except.ok [OutLine.noDividends] := by
  have he : enter true (ReadResult.ok csv) action symbol =
      Except.ok (some []) := by
    unfold enter
    rw [h]
    rfl
  unfold dividend_csv_process
  rw [he]
  rfl

/-- Witness for C6: a file with the full header and no data rows. -/
theorem spec_C6_empty_notice_witness :
    dividend_csv_process "sum" PyAction.dividend true (ReadResult.ok csvNoRows)
      none = Except.ok [OutLine.noDividends] :=
  spec_C6_empty_notice PyAction.dividend csvNoRows none rfl

/-- C7.  Loading fails with `FileNotFoundError` iff the path does not exist;
when the file exists but is empty (`EmptyDataError`) or cannot be parsed
(`ParserError`), the invocation fails with the `RuntimeError` invalid-format
category.  In each case `dividend_csv_process` returns an error and produces
no report output. -/
theorem spec_C7_loading_errors (report : String) (action : PyAction)
    (fileExists : Bool) (rr : ReadResult) (symbol : Option String) :
    ((dividend_csv_process report action fileExists rr symbol =
        Except.error PyError.fileNotFoundError) ↔ fileExists = false) ∧
    (dividend_csv_process report action true ReadResult.emptyData symbol =
      Except.error PyError.runtimeInvalidFormat) ∧
    (dividend_csv_process report action true ReadResult.parserError symbol =
      Except.error PyError.runtimeInvalidFormat) := by
  refine ⟨?_, ?_, ?_⟩
  · cases fileExists with
    | false =>
      have hp : dividend_csv_process report action false rr symbol =
          Except.error PyError.fileNotFoundError := rfl
      simp [hp]
    | true =>
      simp only [Bool.true_eq_false, iff_false]
      intro hproc
      cases rr with
      | emptyData =>
        have hp : dividend_csv_process report action true ReadResult.emptyData
            symbol = Except.error PyError.runtimeInvalidFormat := by
          cases action <;> rfl
        rw [hp] at hproc
        simp at hproc
      | parserError =>
        have hp : dividend_csv_process report action true ReadResult.parserError
            symbol = Except.error PyError.runtimeInvalidFormat := by
          cases action <;> rfl
        rw [hp] at hproc
        simp at hproc
      | ok csv =>
        unfold dividend_csv_process at hproc
        cases hl : loadAction action (ReadResult.ok csv) symbol with
        | ok df =>
          have he : enter true (ReadResult.ok csv) action symbol =
              Except.ok (some df) := by
            unfold enter
            rw [hl]
            rfl
          rw [he] at hproc
          simp at hproc
        | error e =>
          obtain ⟨c, rfl⟩ := loadAction_ok_error action csv symbol e hl
          have he : enter true (ReadResult.ok csv) action symbol =
              Except.error (PyError.keyError c) := by
            unfold enter
            rw [hl]
            rfl
          rw [he] at hproc
          simp at hproc
  · cases action <;> rfl
  · cases action <;> rfl

/-- C10.  A row whose `Amount ($)` cell is not parseable as a number gets an
explicit missing amount at load time; it is then always excluded from the
dividend mask (a missing amount fails the ≥ 0 test), passes the reinvestment
mask exactly when its action text matches (and any symbol filter agrees), and
its missing amount contributes 0 to any amount sum. -/
theorem spec_C10_missing_amount (raw : RawRow)
    (h : raw.amountCell = RawCell.nonNumeric) :
    (coerceRow raw).amount = none ∧
    (∀ symbol, divMask symbol (coerceRow raw) = false) ∧
    (∀ symbol, invMask symbol (coerceRow raw) =
      (actionContains raw.action "reinvestment" &&
        (!pyTruthy symbol || symbolEq raw.symbol (symbolUpper symbol)))) ∧
    (∀ rows, sumAmounts (coerceRow raw :: rows) = sumAmounts rows) := by
  have hc : (coerceRow raw).amount = none := by
    simp [coerceRow, h, toNumericCoerce]
  refine ⟨hc, ?_, ?_, ?_⟩
  · intro symbol
    simp [divMask, hc, amountGE0]
  · intro symbol
    simp [invMask, coerceRow, actionContains_reinvestment]
  · intro rows
    simp [sumAmounts, hc, amountOrZero]

/-- Witness for C10: a reinvestment row with unparseable amount text. -/
theorem spec_C10_missing_amount_witness :
    (coerceRow rawBadAmount).amount = none ∧
    divMask none (coerceRow rawBadAmount) = false ∧
    invMask none (coerceRow rawBadAmount) =
      (actionContains rawBadAmount.action "reinvestment" &&
        (!pyTruthy none || symbolEq rawBadAmount.symbol (symbolUpper none))) ∧
    sumAmounts (coerceRow rawBadAmount :: []) = sumAmounts [] :=
  ⟨(spec_C10_missing_amount rawBadAmount rfl).1,
   (spec_C10_missing_amount rawBadAmount rfl).2.1 none,
   (spec_C10_missing_amount rawBadAmount rfl).2.2.1 none,
   (spec_C10_missing_amount rawBadAmount rfl).2.2.2 []⟩

lemma noData_notin_sumView (divs : List Row) :
    OutLine.noData ∉ sumView divs := by
  unfold sumView
  split
  · simp
  · simp [List.mem_map]

lemma noData_notin_symbolsView (divs : List Row) :
    OutLine.noData ∉ symbolsView divs := by
  simp [symbolsView, List.mem_map]

lemma noData_notin_detailsView (divs : List Row) :
    OutLine.noData ∉ detailsView divs := by
  simp only [detailsView, List.mem_flatten, List.mem_map]
  rintro ⟨l, ⟨k, _, rfl⟩, hmem⟩
  simp at hmem

lemma noData_notin_runReport (report : String) (divs : List Row) :
    OutLine.noData ∉ runReport report divs := by
  unfold runReport
  split
  · exact noData_notin_sumView divs
  · exact noData_notin_symbolsView divs
  · exact noData_notin_detailsView divs
  · simp
  · simp
  · simp

/-- C9.  Whenever loading succeeds, `Dividend.__enter__` returns the
DataFrame itself and never `None`; consequently the `divs is None` branch of
`dividend_csv_process` is unreachable and "No data available." is never part
of any report output. -/
theorem spec_C9_enter_never_none (fileExists : Bool) (rr : ReadResult)
    (action : PyAction) (symbol : Option String) (report : String) :
    (∀ v, enter fileExists rr action symbol = Except.ok v →
      v.isSome = true) ∧
    (∀ out, dividend_csv_process report action fileExists rr symbol =
        Except.ok out → OutLine.noData ∉ out) := by
  have h1 : ∀ v, enter fileExists rr action symbol = Except.ok v →
      v.isSome = true := by
    intro v hv
    unfold enter at hv
    cases fileExists with
    | false => simp at hv
    | true =>
      cases hl : loadAction action rr symbol with
      | ok df =>
        rw [hl] at hv
        simp at hv
        subst hv
        rfl
      | error e =>
        rw [hl] at hv
        cases e <;> simp at hv
  refine ⟨h1, ?_⟩
  intro out hout
  unfold dividend_csv_process at hout
  cases he : enter fileExists rr action symbol with
  | error e =>
    rw [he] at hout
    simp at hout
  | ok v =>
    have hs := h1 v he
    cases v with
    | none => simp at hs
    | some divs =>
      rw [he] at hout
      injection hout with h2
      exact h2 ▸ noData_notin_runReport report divs

/-- Witness for C9: the header-only file, dividend category, sum report. -/
theorem spec_C9_enter_never_none_witness :
    (some ([] : List Row)).isSome = true ∧
    OutLine.noData ∉ [OutLine.noDividends] :=
  ⟨(spec_C9_enter_never_none true (ReadResult.ok csvNoRows) PyAction.dividend
      none "sum").1 (some []) rfl,
   (spec_C9_enter_never_none true (ReadResult.ok csvNoRows) PyAction.dividend
      none "sum").2 [OutLine.noDividends] rfl⟩

lemma insertStr_perm (s : String) (l : List String) :
    List.Perm (insertStr s l) (s :: l) := by
  induction l with
  | nil => exact List.Perm.refl _
  | cons t ts ih =>
    unfold insertStr
    by_cases h : s ≤ t
    · rw [if_pos h]
    · rw [if_neg h]
      exact (ih.cons t).trans (List.Perm.swap s t ts)

lemma sortStrs_perm (l : List String) : List.Perm (sortStrs l) l := by
  induction l with
  | nil => exact List.Perm.refl _
  | cons t ts ih =>
    unfold sortStrs
    exact (insertStr_perm t (sortStrs ts)).trans (ih.cons t)

lemma mem_dedupAux (seen l : List String) (x : String) :
    x ∈ dedupAux seen l ↔ x ∈ l ∧ x ∉ seen := by
  induction l generalizing seen with
  | nil => simp [dedupAux]
  | cons s ss ih =>
    unfold dedupAux
    by_cases h : seen.contains s = true
    · have hs : s ∈ seen := by simpa using h
      rw [if_pos h]
      simp only [List.mem_cons, ih]
      constructor
      · rintro ⟨hx, hns⟩
        exact ⟨Or.inr hx, hns⟩
      · rintro ⟨hx, hns⟩
        rcases hx with rfl | hx2
        · exact absurd hs hns
        · exact ⟨hx2, hns⟩
    · have hs : s ∉ seen := by simpa using h
      rw [if_neg h]
      simp only [List.mem_cons, ih]
      constructor
      · rintro (rfl | ⟨hx, hns⟩)
        · exact ⟨Or.inl rfl, hs⟩
        · exact ⟨Or.inr hx, fun hseen => hns (Or.inr hseen)⟩
      · rintro ⟨hor, hns⟩
        rcases hor with rfl | hx2
        · exact Or.inl rfl
        · by_cases hxs : x = s
          · exact Or.inl hxs
          · exact Or.inr ⟨hx2, fun hor2 =>
              hor2.elim (fun h1 => hxs h1) (fun h2 => hns h2)⟩

lemma nodup_dedupAux (seen l : List String) : (dedupAux seen l).Nodup := by
  induction l generalizing seen with
  | nil => simp [dedupAux]
  | cons s ss ih =>
    unfold dedupAux
    by_cases h : seen.contains s = true
    · rw [if_pos h]
      exact ih seen
    · rw [if_neg h]
      refine List.nodup_cons.mpr ⟨?_, ih (s :: seen)⟩
      intro hmem
      have hin := (mem_dedupAux (s :: seen) ss s).mp hmem
      exact hin.2 (List.mem_cons_self s seen)

lemma mem_groupKeys (rows : List Row) (s : String) :
    s ∈ groupKeys rows ↔ ∃ r ∈ rows, r.symbol = some s := by
  unfold groupKeys dedupFirst
  rw [(sortStrs_perm _).mem_iff, mem_dedupAux]
  simp [List.mem_filterMap]

lemma nodup_groupKeys (rows : List Row) : (groupKeys rows).Nodup := by
  unfold groupKeys dedupFirst
  exact ((sortStrs_perm _).nodup_iff).mpr (nodup_dedupAux [] _)

lemma sumAmounts_cons (r : Row) (rows : List Row) :
    sumAmounts (r :: rows) = amountOrZero r.amount + sumAmounts rows := by
  simp [sumAmounts]

lemma sumAmounts_filter_or (p q : Row → Bool) (l : List Row)
    (hdisj : ∀ r, p r = true → q r = false) :
    sumAmounts (l.filter (fun r => p r || q r)) =
      sumAmounts (l.filter p) + sumAmounts (l.filter q) := by
  induction l with
  | nil => simp [sumAmounts]
  | cons x xs ih =>
    cases hp : p x with
    | true =>
      cases hq : q x with
      | true =>
        have hf := hdisj x hp
        rw [hf] at hq
        simp at hq
      | false =>
        simp only [List.filter_cons, hp, hq, Bool.true_or]
        simp only [if_pos, if_neg, Bool.false_eq_true, not_false_iff]
        rw [sumAmounts_cons, sumAmounts_cons, ih]
        omega
    | false =>
      cases hq : q x with
      | true =>
        simp only [List.filter_cons, hp, hq, Bool.false_or]
        simp only [if_pos, if_neg, Bool.false_eq_true, not_false_iff]
        rw [sumAmounts_cons, sumAmounts_cons, ih]
        omega
      | false =>
        simp only [List.filter_cons, hp, hq, Bool.false_or]
        simp only [if_neg, Bool.false_eq_true, not_false_iff]
        exact ih

lemma sum_groupTotals_keys (rows : List Row) (keys : List String)
    (hnd : keys.Nodup) :
    ((keys.map (groupTotal rows)).sum) =
      sumAmounts (rows.filter (fun r =>
        match r.symbol with
        | some s => keys.contains s
        | none => false)) := by
  induction keys with
  | nil =>
    have h0 : (rows.filter (fun r =>
        (match r.symbol with
         | some s => List.contains [] s
         | none => false : Bool))) = rows.filter (fun _ => false) := by
      apply List.filter_congr
      intro r _
      cases hr : r.symbol <;> simp
    rw [List.map_nil, List.sum_nil, h0]
    simp [sumAmounts]
  | cons k ks ih =>
    obtain ⟨hk, hks⟩ := List.nodup_cons.mp hnd
    have hdisj : ∀ r : Row, (r.symbol == some k) = true →
        ((match r.symbol with
          | some s => ks.contains s
          | none => false : Bool)) = false := by
      intro r hr
      have hrs : r.symbol = some k := by simpa using hr
      rw [hrs]
      simp [hk]
    have hsplit : rows.filter (fun r =>
        (match r.symbol with
         | some s => (k :: ks).contains s
         | none => false : Bool)) =
        rows.filter (fun r => (r.symbol == some k) ||
          (match r.symbol with
           | some s => ks.contains s
           | none => false : Bool)) := by
      apply List.filter_congr
      intro r _
      cases hr : r.symbol with
      | none => simp
      | some s => simp [List.contains_cons, beq_eq_decide]
    rw [List.map_cons, List.sum_cons, hsplit,
      sumAmounts_filter_or _ _ rows hdisj, ih hks]
    rfl

lemma sum_groupTotals (rows : List Row) :
    (((groupKeys rows).map (groupTotal rows)).sum) =
      sumAmounts (rows.filter (fun r => r.symbol.isSome)) := by
  rw [sum_groupTotals_keys rows (groupKeys rows) (nodup_groupKeys rows)]
  congr 1
  apply List.filter_congr
  intro r hr
  cases hs : r.symbol with
  | none => simp
  | some s =>
    have hmem : s ∈ groupKeys rows := (mem_groupKeys rows s).mpr ⟨r, hr, hs⟩
    simp [hmem]

lemma printedTotals_map_totalLine (f : String → Int) (ks : List String) :
    printedTotals (ks.map (fun k => OutLine.totalLine k (f k))) = ks.map f := by
  induction ks with
  | nil => rfl
  | cons k kt ih =>
    unfold printedTotals at ih ⊢
    simp only [List.map_cons, List.filterMap_cons] at ih ⊢
    rw [ih]

/-- C5 (amended).  The sum of the per-symbol totals printed by the Totals
(sum) view equals the sum of the amounts of those filtered rows whose
`Symbol` cell is present; rows with a missing symbol are dropped by
`groupby` and do not appear in any printed total. -/
theorem spec_C5_totals_sum (divs : List Row) :
    (printedTotals (sumView divs)).sum =
      sumAmounts (divs.filter (fun r => r.symbol.isSome)) := by
  cases divs with
  | nil => rfl
  | cons x xs =>
    unfold sumView
    rw [if_neg (by simp)]
    rw [printedTotals_map_totalLine (groupTotal (x :: xs)) (groupKeys (x :: xs))]
    exact sum_groupTotals (x :: xs)

/-- C5 counterexample: a dividend row with a missing `Symbol` cell is in the
filtered set, but `groupby("Symbol")` drops NaN keys, so the sum view prints
no total for it at all: the per-symbol totals sum to 0 while the filtered
amounts sum to 500 cents. -/
theorem spec_C5_counterexample :
    dividendSubset [rowNoSym] = [rowNoSym] ∧
    (printedTotals (sumView [rowNoSym])).sum = 0 ∧
    sumAmounts [rowNoSym] = 500 :=
  ⟨rfl, rfl, rfl⟩
